import Mathlib

/-!
Verification of the core algebra and systems of the BevyRayTracing repository.

The motor algebra (`src/math/motor.rs`), homogeneous points
(`src/math/point.rs`) and 3D vectors (`src/math/vector3.rs`) are embedded
as structures over `ℚ`, idealising the `f32` coefficients as exact scalars;
every closed-form coefficient formula is transcribed verbatim from the Rust
source. The hierarchical transform propagator (`src/transform.rs`) is
embedded as explicit per-entity maps with a fuel-indexed ancestor walk, and
the per-frame surface-acquisition loop (`src/render/render_state.rs`) as a
recursion on the stream of acquisition outcomes.
-/

namespace RayTracing

/-- `Vector3` from `src/math/vector3.rs`: a plain 3D vector. -/
@[ext]
structure Vector3 where
  x : ℚ
  y : ℚ
  z : ℚ
deriving DecidableEq

/-- Componentwise vector addition (`u + v` of two offsets). -/
def Vector3.add (u v : Vector3) : Vector3 :=
  { x := u.x + v.x, y := u.y + v.y, z := u.z + v.z }

instance : Add Vector3 :=
  ⟨Vector3.add⟩

/-- `Motor` from `src/math/motor.rs`: 8 coefficients of a PGA motor. -/
@[ext]
structure Motor where
  s : ℚ
  e12 : ℚ
  e13 : ℚ
  e23 : ℚ
  e01 : ℚ
  e02 : ℚ
  e03 : ℚ
  e0123 : ℚ
deriving DecidableEq

/-- `Motor::IDENTITY`. -/
def Motor.IDENTITY : Motor :=
  { s := 1, e12 := 0, e13 := 0, e23 := 0, e01 := 0, e02 := 0, e03 := 0, e0123 := 0 }

/-- `Motor::translation(offset)`: pure translation motor,
translation coefficients are `-0.5 *` the offset. -/
def Motor.translation (offset : Vector3) : Motor :=
  { s := 1
    e12 := 0
    e13 := 0
    e23 := 0
    e01 := offset.x * (-1 / 2)
    e02 := offset.y * (-1 / 2)
    e03 := offset.z * (-1 / 2)
    e0123 := 0 }

/-- `Motor::apply(self, other)`: the geometric product `self * other`,
transcribed coefficient by coefficient from the closed form in the source. -/
def Motor.apply (self other : Motor) : Motor :=
  let a := self.s
  let b := self.e12
  let c := self.e13
  let d := self.e23
  let e := self.e01
  let f := self.e02
  let g := self.e03
  let h := self.e0123
  let i := other.s
  let j := other.e12
  let k := other.e13
  let l := other.e23
  let m := other.e01
  let n := other.e02
  let o := other.e03
  let p := other.e0123
  { s := -b * j + -c * k + -d * l + a * i
    e12 := -c * l + a * j + b * i + d * k
    e13 := -d * j + a * k + b * l + c * i
    e23 := -b * k + a * l + c * j + d * i
    e01 := -d * p + -f * j + -g * k + -h * l + a * m + b * n + c * o + e * i
    e02 := -b * m + -g * l + a * n + c * p + d * o + e * j + f * i + h * k
    e03 := -b * p + -c * m + -d * n + -h * j + a * o + e * k + f * l + g * i
    e0123 := -c * n + -f * k + a * p + b * o + d * m + e * l + g * j + h * i }

/-- `Motor::pre_apply(self, other) = other.apply(self)`. -/
def Motor.pre_apply (self other : Motor) : Motor :=
  other.apply self

/-- `Motor::inverse`: negate the six bivector coefficients, keep scalar
and pseudoscalar. -/
def Motor.inverse (self : Motor) : Motor :=
  { s := self.s
    e12 := -self.e12
    e13 := -self.e13
    e23 := -self.e23
    e01 := -self.e01
    e02 := -self.e02
    e03 := -self.e03
    e0123 := self.e0123 }

/-- `Motor::rotation_part`: zero out the translation coefficients. -/
def Motor.rotation_part (self : Motor) : Motor :=
  { s := self.s
    e12 := self.e12
    e13 := self.e13
    e23 := self.e23
    e01 := 0
    e02 := 0
    e03 := 0
    e0123 := 0 }

/-- A valid unit motor: the rotation coefficients have unit norm and the
Study condition (the pseudoscalar part of `m * reverse m` vanishes) holds.
Both conditions hold for the `translation` constructor and are preserved by
`apply` (proved below), so every motor the program builds satisfies them. -/
def Motor.isUnitMotor (m : Motor) : Prop :=
  m.s ^ 2 + m.e12 ^ 2 + m.e13 ^ 2 + m.e23 ^ 2 = 1 ∧
    m.s * m.e0123 - m.e12 * m.e03 + m.e13 * m.e02 - m.e23 * m.e01 = 0

/-- `Point` from `src/math/point.rs`: homogeneous point, `e123` is the
weight coefficient. -/
@[ext]
structure Point where
  e012 : ℚ
  e013 : ℚ
  e023 : ℚ
  e123 : ℚ
deriving DecidableEq

/-- `Point::transform(self, motor)`: the sandwich product
`motor * self * reverse(motor)`, transcribed from the closed form in the
source. -/
def Point.transform (self : Point) (motor : Motor) : Point :=
  let a := motor.s
  let b := motor.e12
  let c := motor.e13
  let d := motor.e23
  let e := motor.e01
  let f := motor.e02
  let g := motor.e03
  let h := motor.e0123
  let i := self.e012
  let j := self.e013
  let k := self.e023
  let l := self.e123
  { e012 := -2 * a * d * j + -2 * a * g * l + 1 * a * a * i + 2 * a * c * k
      + -1 * d * d * i + -2 * d * f * l + 2 * b * d * k + -2 * b * h * l
      + -2 * c * e * l + 1 * b * b * i + 2 * b * c * j + -1 * c * c * i
    e013 := -2 * a * b * k + -1 * b * b * j + 2 * b * c * i + 2 * b * e * l
      + 1 * a * a * j + 2 * a * d * i + 2 * a * f * l + -2 * c * h * l
      + -2 * d * g * l + -1 * d * d * j + 2 * c * d * k + 1 * c * c * j
    e023 := -2 * a * c * i + -2 * a * e * l + 1 * a * a * k + 2 * a * b * j
      + -1 * c * c * k + 2 * c * d * j + 2 * c * g * l + -2 * d * h * l
      + 2 * b * f * l + -1 * b * b * k + 2 * b * d * i + 1 * d * d * k
    e123 := a * a * l + b * b * l + c * c * l + d * d * l }

/-- `From<Vector3> for Point`: fixed basis mapping with weight 1. -/
def Point.fromVector3 (value : Vector3) : Point :=
  { e012 := value.z
    e013 := -value.y
    e023 := value.x
    e123 := 1 }

/-- `From<Point> for Vector3`: divide by the weight coefficient `e123`. -/
def Vector3.fromPoint (value : Point) : Vector3 :=
  { x := value.e023 / value.e123
    y := -value.e013 / value.e123
    z := value.e012 / value.e123 }

/-- Scaling every one of the 8 motor coefficients by `c` (used to state
scale-invariance of the recovered position). -/
def Motor.smulAll (c : ℚ) (m : Motor) : Motor :=
  { s := c * m.s
    e12 := c * m.e12
    e13 := c * m.e13
    e23 := c * m.e23
    e01 := c * m.e01
    e02 := c * m.e02
    e03 := c * m.e03
    e0123 := c * m.e0123 }

/-- Scaling only the rotation-part coefficients (`s`, `e12`, `e13`, `e23`,
the ones kept by `Motor::rotation_part`) by `c`, the translation and
pseudoscalar coefficients untouched. -/
def Motor.scaleRotationPart (c : ℚ) (m : Motor) : Motor :=
  { s := c * m.s
    e12 := c * m.e12
    e13 := c * m.e13
    e23 := c * m.e23
    e01 := m.e01
    e02 := m.e02
    e03 := m.e03
    e0123 := m.e0123 }

/-- Scaling the 4 point coefficients by `c`. -/
def Point.smul (c : ℚ) (p : Point) : Point :=
  { e012 := c * p.e012
    e013 := c * p.e013
    e023 := c * p.e023
    e123 := c * p.e123 }

/-! ## Transform propagation (`src/transform.rs`)

Entities are natural numbers. A `TransformRef` mirrors `Ref<Transform>`:
the local pose and its change-detection flag; a `ParentRef` mirrors
`Ref<Parent>`: the parent entity and the `Parent` component's change flag.
The `transforms` query of `update_global_transforms` maps an entity to its
`(Ref<Transform>, Option<Ref<Parent>>)` pair, the `global_transforms` query
maps an entity to its cached `GlobalTransform` motor. The `while let` walk
over the ancestor chain is given explicit fuel; a run out of fuel or a
failing `.unwrap()` is modelled as `none` (the Rust code would spin or
panic there). -/

/-- `Ref<Transform>`: local pose motor plus its change-detection flag. -/
structure TransformRef where
  motor : Motor
  changed : Bool
deriving DecidableEq

/-- `Ref<Parent>`: parent entity id plus the component's change flag. -/
structure ParentRef where
  parent : Nat
  changed : Bool
deriving DecidableEq

/-- The change flag of an optional `Ref<Parent>`
(`current_parent.as_ref().map_or(false, |parent| parent.is_changed())`). -/
def optParentChanged : Option ParentRef → Bool
  | none => false
  | some p => p.changed

/-- The world as seen by `update_global_transforms`: the `transforms` query
and the `global_transforms` query. -/
structure Scene where
  transforms : Nat → Option (TransformRef × Option ParentRef)
  globals : Nat → Option Motor

/-- The `while let Some(parent) = current_parent` walk of
`update_global_transforms`: accumulates
`transform.motor = transform.motor.pre_apply(current_transform.motor)` and
OR-reduces the change flags along the ancestor chain. -/
def walkChain (ts : Nat → Option (TransformRef × Option ParentRef)) :
    Nat → Option ParentRef → Motor → Bool → Option (Motor × Bool)
  | _, none, acc, ch => some (acc, ch)
  | 0, some _, _, _ => none
  | fuel + 1, some pr, acc, ch =>
    match ts pr.parent with
    | none => none
    | some (t, pOpt) =>
      walkChain ts fuel pOpt (acc.pre_apply t.motor)
        (ch || (t.changed || optParentChanged pOpt))

/-- The per-entity body of `update_global_transforms`: fetch the entity's
own `(transform, parent)` pair, seed the accumulator and change flag, and
walk the ancestor chain. -/
def computeEntity (ts : Nat → Option (TransformRef × Option ParentRef))
    (fuel e : Nat) : Option (Motor × Bool) :=
  match ts e with
  | none => none
  | some (t, pOpt) =>
    walkChain ts fuel pOpt t.motor (t.changed || optParentChanged pOpt)

/-- Outcome of `update_global_transforms` for one entity. -/
inductive WriteResult where
  /-- The entity is not in the `global_transforms` query. -/
  | noGlobal : WriteResult
  /-- `transform_changed` was false: the cached global motor `g` is kept,
  nothing is written. -/
  | kept (g : Motor) : WriteResult
  /-- `transform_changed` was true: the global transform is overwritten
  with the accumulated motor `m`. -/
  | written (m : Motor) : WriteResult
deriving DecidableEq

/-- One entity's slice of `update_global_transforms` (the closure body run
by `par_iter_mut().for_each`): writes the accumulated motor only when the
OR-reduced change flag is set. -/
def updateEntityGlobal (fuel : Nat) (s : Scene) (e : Nat) : Option WriteResult :=
  match s.globals e with
  | none => some WriteResult.noGlobal
  | some g =>
    match computeEntity s.transforms fuel e with
    | none => none
    | some (m, ch) => some (if ch then WriteResult.written m else WriteResult.kept g)

/-- The list of ancestors of a chain head, in walk order (used to state
which nodes the walk visits). -/
def ancestorList (ts : Nat → Option (TransformRef × Option ParentRef)) :
    Nat → Option ParentRef → Option (List Nat)
  | _, none => some []
  | 0, some _ => none
  | fuel + 1, some pr =>
    match ts pr.parent with
    | none => none
    | some (_, pOpt) => (ancestorList ts fuel pOpt).map (pr.parent :: ·)

/-- `true` when an entity's local pose flag and parent-link flag are both
clean (or the entity is absent). -/
def quietAt (ts : Nat → Option (TransformRef × Option ParentRef)) (a : Nat) : Bool :=
  match ts a with
  | none => true
  | some (t, pOpt) => !t.changed && !optParentChanged pOpt

/-- The 3-level chain root (entity 0, pose `R`) → mid (entity 1, pose `M`)
→ leaf (entity 2, pose `L`), every local pose freshly changed, every cached
global at the identity. -/
def chainScene (R M L : Motor) : Scene :=
  { transforms := fun n =>
      if n = 0 then some ({ motor := R, changed := true }, none)
      else if n = 1 then some ({ motor := M, changed := true }, some { parent := 0, changed := false })
      else if n = 2 then some ({ motor := L, changed := true }, some { parent := 1, changed := false })
      else none
    globals := fun n => if n ≤ 2 then some Motor.IDENTITY else none }

/-- The motor of a quarter-turn rotation in the `xy` plane
(`rotation_xy(pi/2)`: half-angle sine 1, cosine 0). -/
def rotXY90 : Motor :=
  { s := 0, e12 := 1, e13 := 0, e23 := 0, e01 := 0, e02 := 0, e03 := 0, e0123 := 0 }

/-- A quiet two-node scene: entity 0 is the root, entity 1 its child; no
change flag is set; entity 1 caches the global `translation((5,0,0))`. -/
def quietScene : Scene :=
  { transforms := fun n =>
      if n = 0 then some ({ motor := Motor.IDENTITY, changed := false }, none)
      else if n = 1 then
        some ({ motor := Motor.translation ⟨1, 0, 0⟩, changed := false },
          some { parent := 0, changed := false })
      else none
    globals := fun n => if n = 1 then some (Motor.translation ⟨5, 0, 0⟩) else none }

/-- The `transforms` query of `update_removed_parents`
(`Query<&mut Transform>`) after marking entity `r`: dereferencing the
`Transform` mutably sets its change flag and leaves the value alone. -/
def markChanged (ts : Nat → Option TransformRef) (r : Nat) :
    Nat → Option TransformRef :=
  fun n => if n = r then (ts n).map (fun t => { t with changed := true }) else ts n

/-- `update_removed_parents`: for every entity whose `Parent` component was
removed, dereference its `Transform` mutably — setting the change flag
without modifying the value. -/
def update_removed_parents (removed : List Nat)
    (ts : Nat → Option TransformRef) : Nat → Option TransformRef :=
  removed.foldl markChanged ts

/-- A one-entity transform store for concrete runs of
`update_removed_parents`. -/
def singleTransformStore : Nat → Option TransformRef :=
  fun n => if n = 3 then some { motor := Motor.translation ⟨1, 2, 3⟩, changed := false } else none

/-! ## Per-frame surface acquisition (`src/render/render_state.rs`, `render`)

`surface.get_current_texture()` either succeeds or fails with one of the
four `wgpu::SurfaceError` variants. The `loop { match ... } }` around it is
embedded twice, faithfully to the same `match` arms: once over the finite
list of outcomes the driver returns on successive calls (recording the
corrective actions taken), and once over an infinite outcome stream with
explicit fuel (to reason about termination). -/

/-- The `wgpu::SurfaceError` variants. -/
inductive SurfaceError where
  | timeout : SurfaceError
  | outdated : SurfaceError
  | lost : SurfaceError
  | outOfMemory : SurfaceError
deriving DecidableEq

/-- One outcome of `surface.get_current_texture()`. -/
inductive Acq where
  | ok : Acq
  | err (e : SurfaceError) : Acq
deriving DecidableEq

/-- Observable side effects of the acquisition loop's error arms. -/
inductive RenderEvent where
  /-- `eprintln!("{e}")` on `Timeout`. -/
  | logTimeout : RenderEvent
  /-- `render_state.resize(size.width, size.height)` with the window's
  current inner size, on `Outdated`. -/
  | resizeToWindow : RenderEvent
  /-- `surface.configure(&device, &surface_config)` with the existing
  configuration, on `Lost`. -/
  | reconfigureSurface : RenderEvent
deriving DecidableEq

/-- How the `render` system leaves the acquisition loop. -/
inductive RenderOutcome where
  /-- An image was acquired; the frame is rendered and presented. -/
  | presented : RenderOutcome
  /-- `Timeout`: `return` without presenting this frame. -/
  | aborted : RenderOutcome
  /-- `OutOfMemory`: `panic!` terminates the process. -/
  | panicked : RenderOutcome
deriving DecidableEq

/-- The acquisition `loop` of `render`, over the finite list of outcomes
the surface returns on successive calls; `none` means the loop is still
re-attempting acquisition when the list runs out. Returns the corrective
actions performed, in order, with how the loop exited. -/
def acquireLoop : List Acq → Option (List RenderEvent × RenderOutcome)
  | [] => none
  | Acq.ok :: _ => some ([], RenderOutcome.presented)
  | Acq.err SurfaceError.timeout :: _ =>
    some ([RenderEvent.logTimeout], RenderOutcome.aborted)
  | Acq.err SurfaceError.outdated :: rest =>
    (acquireLoop rest).map (fun r => (RenderEvent.resizeToWindow :: r.1, r.2))
  | Acq.err SurfaceError.lost :: rest =>
    (acquireLoop rest).map (fun r => (RenderEvent.reconfigureSurface :: r.1, r.2))
  | Acq.err SurfaceError.outOfMemory :: _ => some ([], RenderOutcome.panicked)

/-- The same acquisition loop over an infinite stream of outcomes, with
fuel bounding how many acquisition attempts are inspected: `none` means
the loop is still running after `fuel` attempts. -/
def acquireRun : Nat → (Nat → Acq) → Option RenderOutcome
  | 0, _ => none
  | fuel + 1, stream =>
    match stream 0 with
    | Acq.ok => some RenderOutcome.presented
    | Acq.err SurfaceError.timeout => some RenderOutcome.aborted
    | Acq.err SurfaceError.outOfMemory => some RenderOutcome.panicked
    | Acq.err SurfaceError.outdated => acquireRun fuel (fun n => stream (n + 1))
    | Acq.err SurfaceError.lost => acquireRun fuel (fun n => stream (n + 1))

/-- The acquisition loop terminates on an outcome stream when some finite
number of attempts suffices to leave it. -/
def TerminatesOn (stream : Nat → Acq) : Prop :=
  ∃ fuel, (acquireRun fuel stream).isSome = true

/-- An outcome that leaves the loop: success, `Timeout`, or
`OutOfMemory`. -/
def terminalAcq : Acq → Bool
  | Acq.ok => true
  | Acq.err SurfaceError.timeout => true
  | Acq.err SurfaceError.outOfMemory => true
  | Acq.err SurfaceError.outdated => false
  | Acq.err SurfaceError.lost => false

/-! ## Theorems -/

@[simp]
theorem Vector3.add_x (u v : Vector3) : (u + v).x = u.x + v.x := rfl

@[simp]
theorem Vector3.add_y (u v : Vector3) : (u + v).y = u.y + v.y := rfl

@[simp]
theorem Vector3.add_z (u v : Vector3) : (u + v).z = u.z + v.z := rfl

/-- Sanity: a pure translation is a valid unit motor. -/
theorem Motor.isUnitMotor_translation (v : Vector3) :
    (Motor.translation v).isUnitMotor := by
  constructor <;> simp [Motor.translation, Motor.isUnitMotor]

/-- Sanity: the identity is a valid unit motor. -/
theorem Motor.isUnitMotor_IDENTITY : Motor.IDENTITY.isUnitMotor := by
  constructor <;> norm_num [Motor.IDENTITY, Motor.isUnitMotor]

/-- Sanity: `isUnitMotor` is closed under composition, so every motor the
program builds out of translations and rotations satisfies it. -/
theorem Motor.isUnitMotor_apply {m n : Motor}
    (hm : m.isUnitMotor) (hn : n.isUnitMotor) : (m.apply n).isUnitMotor := by
  obtain ⟨hm1, hm2⟩ := hm
  obtain ⟨hn1, hn2⟩ := hn
  constructor
  · simp only [Motor.apply]
    linear_combination (n.s ^ 2 + n.e12 ^ 2 + n.e13 ^ 2 + n.e23 ^ 2) * hm1 + hn1
  · simp only [Motor.apply]
    linear_combination (m.s ^ 2 + m.e12 ^ 2 + m.e13 ^ 2 + m.e23 ^ 2) * hn2 +
      (n.s ^ 2 + n.e12 ^ 2 + n.e13 ^ 2 + n.e23 ^ 2) * hm2

/-- C9: Motor inversion is an involution: for every motor `m`,
`inverse(inverse(m))` equals `m` exactly, coefficient by coefficient. -/
theorem Motor.inverse_involution (m : Motor) : m.inverse.inverse = m := by
  cases m
  simp [Motor.inverse]

/-- C3: For all 3D vectors `u`, `v`,
`compose(translation(u), translation(v)) = translation(u + v)`; in
particular the two pure-translation motors commute. -/
theorem Motor.translation_add (u v : Vector3) :
    (Motor.translation u).apply (Motor.translation v) = Motor.translation (u + v) ∧
      (Motor.translation u).apply (Motor.translation v) =
        (Motor.translation v).apply (Motor.translation u) := by
  constructor <;> ext <;> simp [Motor.translation, Motor.apply] <;> ring

/-- C4: Converting a 3D vector to a homogeneous point and back (division by
the weight coefficient `e123`) yields the original vector. -/
theorem Vector3.roundtrip_point (v : Vector3) :
    Vector3.fromPoint (Point.fromVector3 v) = v := by
  ext <;> simp [Vector3.fromPoint, Point.fromVector3]

/-- C2: For every valid unit motor `m`, `compose(m, inverse(m))` equals the
identity motor; over exact scalars the equality is exact. -/
theorem Motor.apply_inverse_eq_identity (m : Motor) (h : m.isUnitMotor) :
    m.apply m.inverse = Motor.IDENTITY := by
  obtain ⟨h1, h2⟩ := h
  ext <;> simp only [Motor.apply, Motor.inverse, Motor.IDENTITY]
  · linear_combination h1
  · ring
  · ring
  · ring
  · ring
  · ring
  · ring
  · linear_combination 2 * h2

/-- C2 witness: the identity motor is a valid unit motor and composing it
with its inverse gives the identity. -/
theorem Motor.apply_inverse_eq_identity_witness :
    Motor.IDENTITY.isUnitMotor ∧
      Motor.IDENTITY.apply Motor.IDENTITY.inverse = Motor.IDENTITY :=
  ⟨⟨by norm_num [Motor.isUnitMotor, Motor.IDENTITY],
      by norm_num [Motor.isUnitMotor, Motor.IDENTITY]⟩,
    Motor.apply_inverse_eq_identity Motor.IDENTITY
      ⟨by norm_num [Motor.isUnitMotor, Motor.IDENTITY],
        by norm_num [Motor.isUnitMotor, Motor.IDENTITY]⟩⟩

/-- C10 (amended): the transformed point's weight coefficient is
`(s² + e12² + e13² + e23²) * e123`; a unit-norm motor preserves it; scaling
the whole motor by `c` scales all four output coefficients by `c²`, so for
`c ≠ 0` the recovered Euclidean position is unchanged. -/
theorem Point.transform_weight_scaling (m : Motor) (p : Point) (c : ℚ)
    (hc : c ≠ 0) :
    (p.transform m).e123 =
        (m.s ^ 2 + m.e12 ^ 2 + m.e13 ^ 2 + m.e23 ^ 2) * p.e123 ∧
      (m.s ^ 2 + m.e12 ^ 2 + m.e13 ^ 2 + m.e23 ^ 2 = 1 →
        (p.transform m).e123 = p.e123) ∧
      p.transform (Motor.smulAll c m) = Point.smul (c ^ 2) (p.transform m) ∧
      Vector3.fromPoint (p.transform (Motor.smulAll c m)) =
        Vector3.fromPoint (p.transform m) := by
  have hweight : (p.transform m).e123 =
      (m.s ^ 2 + m.e12 ^ 2 + m.e13 ^ 2 + m.e23 ^ 2) * p.e123 := by
    simp only [Point.transform]
    ring
  have hsmul : p.transform (Motor.smulAll c m) = Point.smul (c ^ 2) (p.transform m) := by
    ext <;> simp only [Point.transform, Motor.smulAll, Point.smul] <;> ring
  refine ⟨hweight, ?_, hsmul, ?_⟩
  · intro hunit
    rw [hweight, hunit, one_mul]
  · have hc2 : c ^ 2 ≠ 0 := pow_ne_zero 2 hc
    rw [hsmul]
    ext <;> simp only [Vector3.fromPoint, Point.smul, neg_div, neg_mul] <;>
      rw [mul_div_mul_left _ _ hc2]

/-- C10 witness: instantiated at the translation motor by `(1,0,0)`, the
origin point and scale factor `2`. -/
theorem Point.transform_weight_scaling_witness :
    (2 : ℚ) ≠ 0 ∧
      (((Point.fromVector3 ⟨0, 0, 0⟩).transform (Motor.translation ⟨1, 0, 0⟩)).e123 =
          ((Motor.translation ⟨1, 0, 0⟩).s ^ 2 + (Motor.translation ⟨1, 0, 0⟩).e12 ^ 2 +
              (Motor.translation ⟨1, 0, 0⟩).e13 ^ 2 + (Motor.translation ⟨1, 0, 0⟩).e23 ^ 2) *
            (Point.fromVector3 ⟨0, 0, 0⟩).e123 ∧
        ((Motor.translation ⟨1, 0, 0⟩).s ^ 2 + (Motor.translation ⟨1, 0, 0⟩).e12 ^ 2 +
              (Motor.translation ⟨1, 0, 0⟩).e13 ^ 2 + (Motor.translation ⟨1, 0, 0⟩).e23 ^ 2 = 1 →
          ((Point.fromVector3 ⟨0, 0, 0⟩).transform (Motor.translation ⟨1, 0, 0⟩)).e123 =
            (Point.fromVector3 ⟨0, 0, 0⟩).e123) ∧
        (Point.fromVector3 ⟨0, 0, 0⟩).transform
            (Motor.smulAll 2 (Motor.translation ⟨1, 0, 0⟩)) =
          Point.smul (2 ^ 2)
            ((Point.fromVector3 ⟨0, 0, 0⟩).transform (Motor.translation ⟨1, 0, 0⟩)) ∧
        Vector3.fromPoint
            ((Point.fromVector3 ⟨0, 0, 0⟩).transform
              (Motor.smulAll 2 (Motor.translation ⟨1, 0, 0⟩))) =
          Vector3.fromPoint
            ((Point.fromVector3 ⟨0, 0, 0⟩).transform (Motor.translation ⟨1, 0, 0⟩))) :=
  ⟨by norm_num,
    Point.transform_weight_scaling (Motor.translation ⟨1, 0, 0⟩)
      (Point.fromVector3 ⟨0, 0, 0⟩) 2 (by norm_num)⟩

/-- C10 counterexample: scaling only the motor's rotation part changes the
recovered Euclidean position: for the translation by `(1,0,0)` applied to
the origin, doubling the rotation-part coefficients halves the recovered
position. -/
theorem Point.transform_rotation_scale_dependent :
    Vector3.fromPoint
        ((Point.fromVector3 ⟨0, 0, 0⟩).transform
          (Motor.scaleRotationPart 2 (Motor.translation ⟨1, 0, 0⟩))) ≠
      Vector3.fromPoint
        ((Point.fromVector3 ⟨0, 0, 0⟩).transform (Motor.translation ⟨1, 0, 0⟩)) := by
  intro h
  have hx := congrArg Vector3.x h
  norm_num [Vector3.fromPoint, Point.fromVector3, Point.transform,
    Motor.scaleRotationPart, Motor.translation] at hx

/-- C1 (amended): after one propagation pass over the 3-level chain, the
leaf's World Pose is `compose(R, compose(M, L))` — the root's local pose is
the leftmost factor, not the rightmost. -/
theorem chain_world_pose_eq (R M L : Motor) :
    updateEntityGlobal 3 (chainScene R M L) 2 =
      some (WriteResult.written (R.apply (M.apply L))) := by
  rfl

/-- C1 counterexample: with root pose `rotXY90`, mid pose the identity and
leaf pose `translation((1,0,0))`, the propagated leaf World Pose differs
from `compose(L, compose(M, R))` at the `e02` coefficient (`1/2` versus
`-1/2`). -/
theorem chain_world_pose_claim_false :
    updateEntityGlobal 3
        (chainScene rotXY90 Motor.IDENTITY (Motor.translation ⟨1, 0, 0⟩)) 2 ≠
      some (WriteResult.written
        ((Motor.translation ⟨1, 0, 0⟩).apply (Motor.IDENTITY.apply rotXY90))) := by
  intro h
  norm_num [updateEntityGlobal, computeEntity, walkChain, chainScene, optParentChanged,
    Motor.pre_apply, Motor.apply, Motor.IDENTITY, Motor.translation, rotXY90,
    Motor.mk.injEq] at h

/-- If every node along the ancestor chain is quiet, the walk reaches the
root with the OR-reduced change flag still `false`. -/
theorem walkChain_quiet (ts : Nat → Option (TransformRef × Option ParentRef)) :
    ∀ (fuel : Nat) (pOpt : Option ParentRef) (acc : Motor) (l : List Nat),
      ancestorList ts fuel pOpt = some l →
      optParentChanged pOpt = false →
      (∀ a ∈ l, quietAt ts a = true) →
      ∃ m, walkChain ts fuel pOpt acc false = some (m, false) := by
  intro fuel
  induction fuel with
  | zero =>
    intro pOpt acc l hanc hp hq
    cases pOpt with
    | none => exact ⟨acc, rfl⟩
    | some pr => simp [ancestorList] at hanc
  | succ n ih =>
    intro pOpt acc l hanc hp hq
    cases pOpt with
    | none => exact ⟨acc, rfl⟩
    | some pr =>
      cases hts : ts pr.parent with
      | none => simp [ancestorList, hts] at hanc
      | some tp =>
        obtain ⟨t, pOpt'⟩ := tp
        simp only [ancestorList, hts, Option.map_eq_some'] at hanc
        obtain ⟨l', hl', rfl⟩ := hanc
        have hhead := hq pr.parent (List.mem_cons_self _ _)
        rw [quietAt, hts] at hhead
        simp only [Bool.and_eq_true, Bool.not_eq_true'] at hhead
        obtain ⟨htc, hpc⟩ := hhead
        have := ih pOpt' (acc.pre_apply t.motor) l' hl' hpc
          (fun a ha => hq a (List.mem_cons_of_mem _ ha))
        obtain ⟨m, hm⟩ := this
        refine ⟨m, ?_⟩
        rw [walkChain, hts]
        simp only [htc, hpc, Bool.or_false, Bool.false_or]
        exact hm

/-- C5: for a node holding both a local `Transform` and a cached
`GlobalTransform`, if its own pose flag, its parent-link flag, and every
ancestor's pose and parent-link flags are clean, one propagation pass
leaves the cached global untouched (`kept`, not `written`). -/
theorem global_transform_unchanged_skip (s : Scene) (fuel e : Nat)
    (t : TransformRef) (pOpt : Option ParentRef) (l : List Nat) (g : Motor)
    (hts : s.transforms e = some (t, pOpt))
    (ht : t.changed = false)
    (hp : optParentChanged pOpt = false)
    (hanc : ancestorList s.transforms fuel pOpt = some l)
    (hq : ∀ a ∈ l, quietAt s.transforms a = true)
    (hg : s.globals e = some g) :
    updateEntityGlobal fuel s e = some (WriteResult.kept g) := by
  obtain ⟨m, hm⟩ := walkChain_quiet s.transforms fuel pOpt t.motor l hanc hp hq
  simp only [updateEntityGlobal, computeEntity, hg, hts, ht, hp, Bool.or_self, hm]
  simp

/-- C5 witness: in the quiet two-node scene, the pass keeps entity 1's
cached global exactly as stored. -/
theorem global_transform_unchanged_skip_witness :
    quietScene.transforms 1 =
        some ({ motor := Motor.translation ⟨1, 0, 0⟩, changed := false },
          some { parent := 0, changed := false }) ∧
      ancestorList quietScene.transforms 1 (some { parent := 0, changed := false }) = some [0] ∧
      quietScene.globals 1 = some (Motor.translation ⟨5, 0, 0⟩) ∧
      updateEntityGlobal 1 quietScene 1 =
        some (WriteResult.kept (Motor.translation ⟨5, 0, 0⟩)) :=
  ⟨rfl, rfl, rfl,
    global_transform_unchanged_skip quietScene 1 1
      { motor := Motor.translation ⟨1, 0, 0⟩, changed := false }
      (some { parent := 0, changed := false }) [0] (Motor.translation ⟨5, 0, 0⟩)
      rfl rfl rfl rfl (by decide) rfl⟩

/-- Entities not in the removed list are untouched. -/
theorem update_removed_parents_not_mem (removed : List Nat) :
    ∀ (ts : Nat → Option TransformRef) (e : Nat), e ∉ removed →
      update_removed_parents removed ts e = ts e := by
  induction removed with
  | nil => intro ts e _; rfl
  | cons r rest ih =>
    intro ts e he
    have hr : e ≠ r := fun hc => he (hc ▸ List.mem_cons_self _ _)
    have hrest : e ∉ rest := fun hc => he (List.mem_cons_of_mem _ hc)
    calc update_removed_parents (r :: rest) ts e
        = update_removed_parents rest (markChanged ts r) e := rfl
      _ = markChanged ts r e := ih (markChanged ts r) e hrest
      _ = ts e := by simp [markChanged, hr]

/-- C6: when an entity with a local `Transform` appears in the
removed-`Parent` list, `update_removed_parents` marks its `Transform` as
changed while leaving the motor value untouched. -/
theorem update_removed_parents_marks_changed (removed : List Nat) :
    ∀ (ts : Nat → Option TransformRef) (e : Nat) (t : TransformRef),
      e ∈ removed → ts e = some t →
      update_removed_parents removed ts e = some { motor := t.motor, changed := true } := by
  induction removed with
  | nil => intro ts e t he _; cases he
  | cons r rest ih =>
    intro ts e t he hts
    by_cases hmem : e ∈ rest
    · by_cases her : e = r
      · subst her
        refine ih (markChanged ts e) e { motor := t.motor, changed := true } hmem ?_
        simp [markChanged, hts]
      · refine ih (markChanged ts r) e t hmem ?_
        simp [markChanged, her, hts]
    · have her : e = r := by
        cases he with
        | head => rfl
        | tail _ h => exact absurd h hmem
      subst her
      calc update_removed_parents (e :: rest) ts e
          = update_removed_parents rest (markChanged ts e) e := rfl
        _ = markChanged ts e e := update_removed_parents_not_mem rest _ e hmem
        _ = some { motor := t.motor, changed := true } := by simp [markChanged, hts]

/-- C6 witness: entity 3 loses its `Parent`; its motor survives unchanged
and its change flag is set. -/
theorem update_removed_parents_marks_changed_witness :
    (3 ∈ [3] ∧
        singleTransformStore 3 =
          some { motor := Motor.translation ⟨1, 2, 3⟩, changed := false }) ∧
      update_removed_parents [3] singleTransformStore 3 =
        some { motor := Motor.translation ⟨1, 2, 3⟩, changed := true } :=
  ⟨⟨by decide, rfl⟩,
    update_removed_parents_marks_changed [3] singleTransformStore 3
      { motor := Motor.translation ⟨1, 2, 3⟩, changed := false } (by decide) rfl⟩

/-- C7: per-variant behaviour of the acquisition loop: `Timeout` logs and
aborts the frame without retrying; `Outdated` resizes and retries;
`Lost` reconfigures and retries; `OutOfMemory` terminates the process;
success presents with no corrective action. -/
theorem render_surface_error_handling (rest : List Acq) :
    acquireLoop (Acq.err SurfaceError.timeout :: rest) =
        some ([RenderEvent.logTimeout], RenderOutcome.aborted) ∧
      acquireLoop (Acq.err SurfaceError.outdated :: rest) =
        (acquireLoop rest).map (fun r => (RenderEvent.resizeToWindow :: r.1, r.2)) ∧
      acquireLoop (Acq.err SurfaceError.lost :: rest) =
        (acquireLoop rest).map (fun r => (RenderEvent.reconfigureSurface :: r.1, r.2)) ∧
      acquireLoop (Acq.err SurfaceError.outOfMemory :: rest) =
        some ([], RenderOutcome.panicked) ∧
      acquireLoop (Acq.ok :: rest) = some ([], RenderOutcome.presented) :=
  ⟨rfl, rfl, rfl, rfl, rfl⟩

/-- C8 counterexample: on a stream that reports `Outdated` on every
acquisition attempt, the recovery loop never terminates. -/
theorem render_loop_nonterminating_on_outdated :
    ¬ TerminatesOn (fun _ => Acq.err SurfaceError.outdated) := by
  rintro ⟨fuel, hfuel⟩
  induction fuel with
  | zero => simp [acquireRun] at hfuel
  | succ n ih => exact ih hfuel

/-- C8 (amended): every recoverable branch consumes exactly one
acquisition outcome, so the loop terminates as soon as the stream yields a
terminal outcome (`Ok`, `Timeout` or `OutOfMemory`): if attempt `n` is
terminal, `n + 1` attempts suffice. -/
theorem render_loop_terminates_of_terminal :
    ∀ (n : Nat) (stream : Nat → Acq), terminalAcq (stream n) = true →
      (acquireRun (n + 1) stream).isSome = true := by
  intro n
  induction n with
  | zero =>
    intro stream h
    cases hs : stream 0 with
    | ok => simp [acquireRun, hs]
    | err e =>
      cases e <;> simp [acquireRun, hs] <;> rw [hs] at h <;> simp [terminalAcq] at h
  | succ k ih =>
    intro stream h
    cases hs : stream 0 with
    | ok => simp [acquireRun, hs]
    | err e =>
      cases e with
      | timeout => simp [acquireRun, hs]
      | outOfMemory => simp [acquireRun, hs]
      | outdated =>
        rw [acquireRun, hs]
        exact ih (fun n => stream (n + 1)) h
      | lost =>
        rw [acquireRun, hs]
        exact ih (fun n => stream (n + 1)) h

/-- C8 witness: a stream that succeeds immediately terminates after one
attempt. -/
theorem render_loop_terminates_of_terminal_witness :
    terminalAcq ((fun _ => Acq.ok) 0) = true ∧
      (acquireRun 1 (fun _ => Acq.ok)).isSome = true :=
  ⟨rfl, render_loop_terminates_of_terminal 0 (fun _ => Acq.ok) rfl⟩

end RayTracing
